import Mathlib

/-!
Verification of the claude-bridge WebEx message-triage and room-selection
engine against its natural-language specification.

The embedding models JavaScript strings as lists of characters (`Str`),
timestamps as rational epoch milliseconds, and the JS `Map` used for room
metadata as an association list with overwrite-on-set semantics.  The JS
array sort used by the pipeline is the ECMAScript stable sort, embedded as
`List.mergeSort`.  Dates are carried as already-parsed numeric timestamps;
the hour-of-day and day-of-week that `Date.getHours`/`Date.getDay` extract
from a message's creation time are carried as explicit fields.
-/

namespace ClaudeBridge

/-- JavaScript strings are modelled as lists of characters. -/
abbrev Str := List Char

/-- Shorthand for embedding a Lean string literal as a `Str`. -/
def str (s : String) : Str := s.data

/-- `String.prototype.toLowerCase` (ASCII range, as used by the config values). -/
def lowerStr (s : Str) : Str := s.map Char.toLower

/-- `String.prototype.trim`: strip leading and trailing whitespace. -/
def trimStr (s : Str) : Str :=
  ((s.dropWhile Char.isWhitespace).reverse.dropWhile Char.isWhitespace).reverse

/-- `String.prototype.includes`: substring containment. -/
def strIncludes (text pat : Str) : Bool :=
  text.tails.any fun t => pat.isPrefixOf t

/-- The wildcard matcher built by `RoomFilterService.matchesPatterns`:
the pattern is anchored at both ends and `*` matches any (possibly empty)
character sequence; every other pattern character matches itself.  (The
source builds a regular expression from the pattern without escaping
metacharacters; this embedding covers the documented wildcard semantics,
i.e. patterns whose only special character is `*`.) -/
def globMatch : Str → Str → Bool
  | [], t => t.isEmpty
  | '*' :: ps, t => t.tails.any fun s => globMatch ps s
  | p :: ps, t =>
    match t with
    | [] => false
    | c :: cs => (p == c) && globMatch ps cs

/-- Room kind: `'group' | 'direct'`. -/
inductive RoomType where
  | group
  | direct
deriving DecidableEq, Repr

instance : BEq RoomType := ⟨fun a b => decide (a = b)⟩

/-- A WebEx room as returned by the upstream room listing
(`WebexRoom` in `types/webex.ts`, fields used by the engine).
`lastActivity` is the parsed timestamp in epoch milliseconds. -/
structure WebexRoom where
  id : Str
  title : Option Str
  rtype : RoomType
  lastActivity : ℚ
  isLocked : Bool
deriving DecidableEq, Repr

/-- `RoomMetadata` from `RoomFilterService.ts`.  `lastActivity` is the
parsed timestamp in epoch milliseconds; `score` is the numeric score. -/
structure RoomMetadata where
  id : Str
  title : Str
  rtype : RoomType
  memberCount : Option Nat
  lastActivity : ℚ
  recentMessageCount : Nat
  isArchived : Bool
  hasUrgentKeywords : Bool
  urgentMessageCount : Nat
  score : ℚ
  filterReason : Str
deriving DecidableEq, Repr

/-- `FilterConfig` from `RoomFilterService.ts`. -/
structure FilterConfig where
  priorityRooms : List Str
  includePatterns : List Str
  excludePatterns : List Str
  maxMonitoredRooms : Nat
  minActivityMessages : Nat
  minActivityDays : Nat
  skipDirectMessages : Bool
  cacheMinutes : Nat
deriving DecidableEq, Repr

/-- The aggregate stats of a `FilterResult`. -/
structure FilterStats where
  totalRooms : Nat
  monitoredCount : Nat
  priorityCount : Nat
  patternMatchedCount : Nat
  droppedDueToLimit : Nat
deriving DecidableEq, Repr

/-- `FilterResult` from `RoomFilterService.ts`; `lastRefresh` is the epoch
millisecond timestamp at which the result was computed. -/
structure FilterResult where
  monitoredRooms : List RoomMetadata
  excludedRooms : List RoomMetadata
  stats : FilterStats
  lastRefresh : ℚ
deriving DecidableEq, Repr

/-- The room-metadata map (`Map<string, RoomMetadata>`), as an association
list updated with JS `Map.set` overwrite semantics. -/
abbrev MetaMap := List (Str × RoomMetadata)

/-- `Map.get`. -/
def mapGet (m : MetaMap) (k : Str) : Option RoomMetadata :=
  (m.find? fun p => p.1 == k).map fun p => p.2

/-- `Map.set`: overwrite in place, append when absent. -/
def mapSet : MetaMap → Str → RoomMetadata → MetaMap
  | [], k, v => [(k, v)]
  | (k', v') :: rest, k, v =>
    if k' == k then (k, v) :: rest else (k', v') :: mapSet rest k v

/-- The filter reasons written by the pipeline. -/
def reasonPriority : Str := str "Priority room"

def reasonDirectSkipped : Str := str "Direct message skipped"

def reasonExclude : Str := str "Matches exclude pattern"

def reasonNoInclude : Str := str "No include pattern match"

def reasonLowActivity : Str := str "Low activity"

def reasonPassed : Str := str "Passed filters"

def reasonLimit : Str := str "Limit exceeded"

def reasonAccessError : Str := str "Access error"

/-- The room lookup of the priority phase:
`allRooms.find(r => r.id === identifier || r.title?.toLowerCase() === identifier.toLowerCase())`. -/
def findPriorityRoom (rooms : List WebexRoom) (ident : Str) : Option WebexRoom :=
  rooms.find? fun r =>
    r.id == ident ||
      (match r.title with
       | some t => lowerStr t == lowerStr ident
       | none => false)

/-- Phase 1 of `filterRooms`: for each entry of `priorityRooms`, in order,
the first matching room that has a metadata entry is recorded (the source
pushes its metadata onto `monitoredRooms` and its id into `prioritySet`). -/
def priorityHits (rooms : List WebexRoom) (md : MetaMap) : List Str → List (WebexRoom × RoomMetadata)
  | [] => []
  | ident :: rest =>
    match findPriorityRoom rooms ident with
    | some room =>
      match mapGet md room.id with
      | some m => (room, m) :: priorityHits rooms md rest
      | none => priorityHits rooms md rest
    | none => priorityHits rooms md rest

/-- `RoomFilterService.matchesPatterns`. -/
def matchesPatterns (title : Str) (patterns : List Str) : Bool :=
  if patterns.isEmpty then false
  else patterns.any fun p => globMatch (lowerStr p) (lowerStr title)

/-- `RoomFilterService.passesActivityFilter`: last activity strictly after
`now - minActivityDays` days and at least `minActivityMessages` recent
messages. -/
def passesActivityFilter (now : ℚ) (cfg : FilterConfig) (m : RoomMetadata) : Bool :=
  let cutoff : ℚ := now - (cfg.minActivityDays : ℚ) * 24 * 60 * 60 * 1000
  decide (cutoff < m.lastActivity) && decide (cfg.minActivityMessages ≤ m.recentMessageCount)

/-- `RoomFilterService.calculateScore`. -/
def calculateScore (now : ℚ) (m : RoomMetadata) : ℚ :=
  let base : ℚ := if m.hasUrgentKeywords then 1000 else 0
  let daysSince : ℚ := (now - m.lastActivity) / 86400000
  base + (m.recentMessageCount : ℚ) * 10 + ((m.memberCount.getD 0 : Nat) : ℚ) * 2 +
    max 0 (50 - daysSince)

/-- `room.title || ''`. -/
def roomTitleOrEmpty (r : WebexRoom) : Str := r.title.getD []

/-- One iteration of the phase 2-4 loop body of `filterRooms`, for a
single room: `none` when the loop merely continues (priority room, or no
metadata entry); `some (true, m)` when the room is pushed onto the
excluded list with reason recorded in `m`; `some (false, m)` when it
becomes a scored candidate. -/
def classifyStep (cfg : FilterConfig) (md : MetaMap) (pset : List Str) (now : ℚ)
    (room : WebexRoom) : Option (Bool × RoomMetadata) :=
  if pset.contains room.id then none
  else
    match mapGet md room.id with
    | none => none
    | some m =>
      if cfg.skipDirectMessages && room.rtype == RoomType.direct then
        some (true, { m with filterReason := reasonDirectSkipped })
      else if matchesPatterns (roomTitleOrEmpty room) cfg.excludePatterns then
        some (true, { m with filterReason := reasonExclude })
      else if !(cfg.includePatterns.isEmpty || matchesPatterns (roomTitleOrEmpty room) cfg.includePatterns) then
        some (true, { m with filterReason := reasonNoInclude })
      else if !passesActivityFilter now cfg m then
        some (true, { m with filterReason := reasonLowActivity })
      else
        some (false, { m with score := calculateScore now m })

/-- Phases 2-4 of `filterRooms`: walk the room list in order, skipping
priority rooms and rooms without metadata, and route each remaining room
either to the excluded list (with its reason) or to the scored candidate
list.  Returns `(excludedRooms, candidates)`, each in input order. -/
def classifyRooms (cfg : FilterConfig) (md : MetaMap) (pset : List Str) (now : ℚ) :
    List WebexRoom → List RoomMetadata × List RoomMetadata
  | [] => ([], [])
  | room :: rest =>
    let acc := classifyRooms cfg md pset now rest
    match classifyStep cfg md pset now room with
    | none => acc
    | some (true, m) => (m :: acc.1, acc.2)
    | some (false, m) => (acc.1, m :: acc.2)

/-- The descending-score order underlying the comparator
`(a, b) => b.score - a.score`. -/
def scoreGe (a b : RoomMetadata) : Prop := b.score ≤ a.score

instance : DecidableRel scoreGe := fun a b => inferInstanceAs (Decidable (b.score ≤ a.score))

instance : IsTotal RoomMetadata scoreGe := ⟨fun a b => le_total b.score a.score⟩

instance : IsTrans RoomMetadata scoreGe := ⟨fun _ _ _ h1 h2 => le_trans h2 h1⟩

/-- `candidates.sort((a, b) => b.score - a.score)`: the ECMAScript array
sort is a stable sort, embedded here as stable insertion sort — elements
are ordered by score descending, and elements of equal score keep their
relative input order. -/
def sortByScoreDesc (l : List RoomMetadata) : List RoomMetadata :=
  List.insertionSort scoreGe l

/-- The cache-miss body of `RoomFilterService.filterRooms`: the five-tier
pipeline producing a `FilterResult`. -/
def computeFilterResult (cfg : FilterConfig) (rooms : List WebexRoom) (md : MetaMap) (now : ℚ) :
    FilterResult :=
  let hits := priorityHits rooms md cfg.priorityRooms
  let pmon := hits.map fun h => { h.2 with filterReason := reasonPriority }
  let pset := hits.map fun h => h.1.id
  let step2 := classifyRooms cfg md pset now rooms
  let sorted := sortByScoreDesc step2.2
  let limit : Int := (cfg.maxMonitoredRooms : Int) - (pmon.length : Int)
  let taken := (sorted.take limit.toNat).map fun m => { m with filterReason := reasonPassed }
  let dropped := (sorted.drop limit.toNat).map fun m => { m with filterReason := reasonLimit }
  { monitoredRooms := pmon ++ taken
    excludedRooms := step2.1 ++ dropped
    stats :=
      { totalRooms := rooms.length
        monitoredCount := pmon.length + taken.length
        priorityCount := pmon.length
        patternMatchedCount := taken.length
        droppedDueToLimit := dropped.length }
    lastRefresh := now }

/-! ### Urgency classification (`WebexService`) -/

/-- The fields of a fetched WebEx message that urgency classification
reads.  `createdHour` and `createdDay` are the hour-of-day and day-of-week
that `new Date(message.created).getHours()` / `.getDay()` yield for the
creation timestamp. -/
structure WebexMsg where
  id : Str
  roomId : Str
  text : Option Str
  personEmail : Option Str
  mentionedPeople : List Str
  createdHour : Nat
  createdDay : Nat
deriving DecidableEq, Repr

/-- `WebexService.isMessageCriticallyUrgent`: the hard urgency filter.
Priority 1: any configured keyword (lowercased, trimmed) occurs as a
substring of the lowercased body.  Priority 2: the sender is a configured
high-priority sender.  Priority 3: the message mentions someone and was
created off-hours (before 9, after 17) or on a weekend day. -/
def isMessageCriticallyUrgent (urgencyKeywords highPrioritySenders : List Str)
    (msg : WebexMsg) : Bool :=
  let text := lowerStr (msg.text.getD [])
  if urgencyKeywords.any (fun kw => strIncludes text (trimStr (lowerStr kw))) then
    true
  else if (match msg.personEmail with
           | some e => highPrioritySenders.contains e
           | none => false) then
    true
  else if !msg.mentionedPeople.isEmpty then
    let isOffHours := decide (msg.createdHour < 9) || decide (17 < msg.createdHour)
    let isWeekend := msg.createdDay == 0 || msg.createdDay == 6
    isOffHours || isWeekend
  else
    false

/-- `WebexService.calculateUrgencyScore`: a boolean conversion of the hard
filter, `1.0` or `0.0`. -/
def calculateUrgencyScore (urgencyKeywords highPrioritySenders : List Str)
    (msg : WebexMsg) : ℚ :=
  if isMessageCriticallyUrgent urgencyKeywords highPrioritySenders msg then 1 else 0

/-- The urgency-related fields attached by `WebexService.mapWebexMessage`. -/
structure MappedMessage where
  urgencyScore : ℚ
  isUrgent : Bool
deriving DecidableEq, Repr

/-- `WebexService.mapWebexMessage` (classification part): attach the
urgency score and set `isUrgent` by the `> 0.6` threshold. -/
def mapWebexMessage (urgencyKeywords highPrioritySenders : List Str)
    (msg : WebexMsg) : MappedMessage :=
  let score := calculateUrgencyScore urgencyKeywords highPrioritySenders msg
  { urgencyScore := score, isUrgent := decide ((0.6 : ℚ) < score) }

/-! ### Room metadata collection (`WebexService.collectRoomMetadata`) -/

/-- A message as returned by the upstream `/messages` query during
metadata collection; `created` is the parsed epoch-millisecond timestamp. -/
structure FetchedMsg where
  text : Option Str
  created : ℚ
deriving DecidableEq, Repr

/-- The outcome of the per-room upstream queries: either the whole room
fetch fails (timeout, permission denied, not found, rate limit), or it
yields the recent messages together with the membership count — the latter
`none` when the membership query itself failed. -/
inductive RoomFetch where
  | failure
  | success (messages : List FetchedMsg) (memberCount : Option Nat)
deriving DecidableEq, Repr

/-- The default title `room.title || 'Unknown Room'`. -/
def unknownRoomTitle : Str := str "Unknown Room"

/-- The `RoomMetadata` built for a single room by
`WebexService.collectRoomMetadata`: the success path counts messages in
the last 7 days and keyword-bearing messages; the failure path emits the
degraded record with zero counts, `isArchived = true`, `memberCount = 0`
and `filterReason = 'Access error'`. -/
def collectOne (urgencyKeywords : List Str) (now : ℚ) (fetch : WebexRoom → RoomFetch)
    (room : WebexRoom) : RoomMetadata :=
  match fetch room with
  | RoomFetch.success messages memberCount =>
    let sinceTime : ℚ := now - 7 * 24 * 60 * 60 * 1000
    let recentMessages := messages.filter fun m => decide (sinceTime < m.created)
    let urgentMessages := messages.filter fun m =>
      let text := lowerStr (m.text.getD [])
      urgencyKeywords.any fun kw => strIncludes text (lowerStr kw)
    { id := room.id
      title := room.title.getD unknownRoomTitle
      rtype := room.rtype
      memberCount := memberCount
      lastActivity := room.lastActivity
      recentMessageCount := recentMessages.length
      isArchived := room.isLocked
      hasUrgentKeywords := !urgentMessages.isEmpty
      urgentMessageCount := urgentMessages.length
      score := 0
      filterReason := [] }
  | RoomFetch.failure =>
    { id := room.id
      title := room.title.getD unknownRoomTitle
      rtype := room.rtype
      memberCount := some 0
      lastActivity := room.lastActivity
      recentMessageCount := 0
      isArchived := true
      hasUrgentKeywords := false
      urgentMessageCount := 0
      score := 0
      filterReason := reasonAccessError }

/-- `WebexService.collectRoomMetadata`: walk the batch in order, setting
each room's metadata into the map; a per-room failure produces the
degraded record and the loop continues with the next room. -/
def collectRoomMetadata (urgencyKeywords : List Str) (now : ℚ)
    (fetch : WebexRoom → RoomFetch) (rooms : List WebexRoom) : MetaMap :=
  rooms.foldl (fun acc room => mapSet acc room.id (collectOne urgencyKeywords now fetch room)) []

/-! ### The TTL cache around the pipeline -/

/-- The cache slot of `RoomFilterService` (`cachedResult`, `cacheExpiry`). -/
structure FilterCacheState where
  cachedResult : Option FilterResult
  cacheExpiry : Option ℚ
deriving DecidableEq, Repr

/-- The fresh service state: empty cache. -/
def initialCacheState : FilterCacheState := { cachedResult := none, cacheExpiry := none }

/-- The observable outcome of one `filterRooms` call: the returned result,
the service state afterwards, and whether the pipeline was recomputed. -/
structure FilterCallOutcome where
  result : FilterResult
  state : FilterCacheState
  recomputed : Bool
deriving DecidableEq, Repr

/-- A cache-missing `filterRooms` call: run the pipeline, store the result
and the expiry `now + cacheMinutes` minutes. -/
def filterRoomsRecompute (cfg : FilterConfig) (rooms : List WebexRoom) (md : MetaMap)
    (now : ℚ) : FilterCallOutcome :=
  let r := computeFilterResult cfg rooms md now
  { result := r
    state :=
      { cachedResult := some r
        cacheExpiry := some (now + (cfg.cacheMinutes : ℚ) * 60000) }
    recomputed := true }

/-- `RoomFilterService.filterRooms` with its cache check: when a cached
result exists and `now` is before the expiry, return it unchanged without
recomputing; otherwise recompute and refill the cache. -/
def filterRooms (cfg : FilterConfig) (st : FilterCacheState) (rooms : List WebexRoom)
    (md : MetaMap) (now : ℚ) : FilterCallOutcome :=
  match st.cachedResult, st.cacheExpiry with
  | some r, some e =>
    if now < e then { result := r, state := st, recomputed := false }
    else filterRoomsRecompute cfg rooms md now
  | some _, none => filterRoomsRecompute cfg rooms md now
  | none, _ => filterRoomsRecompute cfg rooms md now

/-- `RoomFilterService.clearCache`. -/
def clearCache (_st : FilterCacheState) : FilterCacheState := initialCacheState

/-- The `WebexService` state observed by the collector-frame claims: the
filter cache plus a count of metadata-collector invocations. -/
structure ServiceState where
  filterState : FilterCacheState
  collectorCalls : Nat
deriving DecidableEq, Repr

/-- The room-gathering prefix of `WebexService.getUrgentMessages` (and of
`getRoomMonitoringStats`): it always invokes `collectRoomMetadata` on the
full room list and only then calls `filterRooms`, which may answer from
its cache. -/
def getUrgentMessagesRooms (cfg : FilterConfig) (urgencyKeywords : List Str)
    (fetch : WebexRoom → RoomFetch) (rooms : List WebexRoom) (st : ServiceState)
    (now : ℚ) : FilterResult × ServiceState :=
  let md := collectRoomMetadata urgencyKeywords now fetch rooms
  let out := filterRooms cfg st.filterState rooms md now
  (out.result, { filterState := out.state, collectorCalls := st.collectorCalls + 1 })

/-! ### Access mode coordination (`WebexHybridService.detectBestMode`) -/

/-- `WebexMode` from `WebexHybrid.ts`. -/
inductive WebexMode where
  | BOT
  | INTEGRATION
  | WEBHOOK
  | HYBRID
deriving DecidableEq, Repr

/-- Per-mode probe analysis for the bot (Direct) and integration
(DelegatedAuth) probes. -/
structure ReadAnalysis where
  available : Bool
  canReadMessages : Bool
  errors : List Str
deriving DecidableEq, Repr

/-- Probe analysis for the webhook (PushNotification) probe. -/
structure WebhookAnalysis where
  available : Bool
  canCreateWebhooks : Bool
  errors : List Str
deriving DecidableEq, Repr

/-- The `modeAnalysis` record built by `detectBestMode`. -/
structure ModeAnalysis where
  bot : ReadAnalysis
  integration : ReadAnalysis
  webhook : WebhookAnalysis
deriving DecidableEq, Repr

/-- What the bot-diagnostics probe reports when it completes. -/
structure BotDiagnostics where
  canReadMessages : Bool
  orgPolicyBlocked : Bool
deriving DecidableEq, Repr

/-- What the integration-access probe reports when it completes. -/
structure IntegrationTest where
  canReadMessages : Bool
  errors : List Str
deriving DecidableEq, Repr

/-- What the webhook-access probe reports when it completes. -/
structure WebhookTest where
  canCreateWebhooks : Bool
  errors : List Str
deriving DecidableEq, Repr

/-- The probe environment of one `detectBestMode` run: for each mode,
`none` when the service is not configured, otherwise the probe's outcome
(`Except.error` when the probe throws). -/
structure ProbeEnv where
  botProbe : Option (Except Str BotDiagnostics)
  integrationProbe : Option (Except Str IntegrationTest)
  webhookProbe : Option (Except Str WebhookTest)

/-- The analysis-gathering half of `detectBestMode`: each probe is run
independently; a probe failure records the error string and leaves the
capability flags false, aborting nothing else. -/
def buildModeAnalysis (env : ProbeEnv) : ModeAnalysis :=
  let bot : ReadAnalysis :=
    match env.botProbe with
    | none => { available := false, canReadMessages := false, errors := [] }
    | some (Except.error e) => { available := false, canReadMessages := false, errors := [e] }
    | some (Except.ok d) =>
      { available := true
        canReadMessages := d.canReadMessages
        errors := if d.orgPolicyBlocked then [str "Organization policy blocks bot message reading"] else [] }
  let integration : ReadAnalysis :=
    match env.integrationProbe with
    | none => { available := false, canReadMessages := false, errors := [] }
    | some (Except.error e) => { available := false, canReadMessages := false, errors := [e] }
    | some (Except.ok t) =>
      { available := true, canReadMessages := t.canReadMessages, errors := t.errors }
  let webhook : WebhookAnalysis :=
    match env.webhookProbe with
    | none => { available := false, canCreateWebhooks := false, errors := [] }
    | some (Except.error e) => { available := false, canCreateWebhooks := false, errors := [e] }
    | some (Except.ok t) =>
      { available := true, canCreateWebhooks := t.canCreateWebhooks, errors := t.errors }
  { bot := bot, integration := integration, webhook := webhook }

/-- The decision policy of `detectBestMode`, evaluated in order over the
gathered analysis. -/
def recommendMode (a : ModeAnalysis) : WebexMode :=
  if a.integration.canReadMessages then WebexMode.INTEGRATION
  else if a.webhook.canCreateWebhooks && !a.bot.canReadMessages then WebexMode.WEBHOOK
  else if a.bot.canReadMessages then WebexMode.BOT
  else WebexMode.HYBRID

/-- `WebexHybridService.detectBestMode`: gather the per-mode analysis and
apply the decision policy. -/
def detectBestMode (env : ProbeEnv) : WebexMode × ModeAnalysis :=
  let analysis := buildModeAnalysis env
  (recommendMode analysis, analysis)

/-! ### Specification-side notions -/

/-- A word character, for the specification's whole-word matching notion. -/
def isWordChar (c : Char) : Bool := c.isAlphanum

/-- The specification's notion of a case-insensitive whole-word match,
stated over already-lowercased text: the keyword occurs in the body and is
not bordered by a word character on either side. -/
def IsWholeWordMatch (body kw : Str) : Prop :=
  ∃ pre post, body = pre ++ kw ++ post ∧
    (∀ c, pre.getLast? = some c → isWordChar c = false) ∧
    (∀ c, post.head? = some c → isWordChar c = false)

/-- The specification's day count since last activity. -/
def daysSinceLastActivity (now : ℚ) (m : RoomMetadata) : ℚ :=
  (now - m.lastActivity) / 86400000

/-- The score formula exactly as the specification states it:
`(1000 if hasUrgentKeywords else 0) + recentMessageCount*10 +
(memberCount or 0)*2 + max(0, 50 - daysSinceLastActivity)`. -/
def specCandidateScore (now : ℚ) (m : RoomMetadata) : ℚ :=
  (if m.hasUrgentKeywords then (1000 : ℚ) else 0) +
    (m.recentMessageCount : ℚ) * 10 +
    ((m.memberCount.getD 0 : Nat) : ℚ) * 2 +
    max 0 (50 - daysSinceLastActivity now m)

/-! ### Helper lemmas -/

theorem strIncludes_of_infix {pat text : Str} (h : pat <:+: text) :
    strIncludes text pat = true := by
  obtain ⟨s, t, rfl⟩ := h
  unfold strIncludes
  rw [List.any_eq_true]
  refine ⟨pat ++ t, ?_, ?_⟩
  · rw [List.mem_tails]
    exact ⟨s, by simp⟩
  · exact List.isPrefixOf_iff_prefix.mpr ⟨t, rfl⟩

/-! ### Claim C10 -/

/-- Claim C10: for every fetched message the attached urgency score is
exactly `0.0` or `1.0`, and the `isUrgent` flag (the `> 0.6` threshold)
holds exactly when the hard urgency filter `isMessageCriticallyUrgent`
accepts the message: the threshold coincides with the hard filter. -/
theorem urgency_score_boolean (urgencyKeywords highPrioritySenders : List Str)
    (msg : WebexMsg) :
    ((mapWebexMessage urgencyKeywords highPrioritySenders msg).urgencyScore = 0 ∨
      (mapWebexMessage urgencyKeywords highPrioritySenders msg).urgencyScore = 1) ∧
    (mapWebexMessage urgencyKeywords highPrioritySenders msg).isUrgent =
      isMessageCriticallyUrgent urgencyKeywords highPrioritySenders msg := by
  cases h : isMessageCriticallyUrgent urgencyKeywords highPrioritySenders msg with
  | true =>
    constructor
    · right
      simp [mapWebexMessage, calculateUrgencyScore, h]
    · simp only [mapWebexMessage, calculateUrgencyScore, h, if_true]
      rw [decide_eq_true]
      norm_num
  | false =>
    constructor
    · left
      simp [mapWebexMessage, calculateUrgencyScore, h]
    · simp only [mapWebexMessage, calculateUrgencyScore, h, if_false]
      rw [decide_eq_false]
      norm_num

/-! ### Claim C3 -/

/-- Claim C3: if the message body contains some configured urgency keyword
(lowercased, trimmed) as a case-insensitive whole-word match, then the
classification attached by `mapWebexMessage` yields `isUrgent = true`,
whatever the sender and whatever the creation time. -/
theorem keyword_whole_word_implies_urgent (urgencyKeywords highPrioritySenders : List Str)
    (msg : WebexMsg)
    (h : ∃ kw ∈ urgencyKeywords,
      IsWholeWordMatch (lowerStr (msg.text.getD [])) (trimStr (lowerStr kw))) :
    (mapWebexMessage urgencyKeywords highPrioritySenders msg).isUrgent = true := by
  obtain ⟨kw, hkw, pre, post, hbody, -, -⟩ := h
  have hincl : strIncludes (lowerStr (msg.text.getD [])) (trimStr (lowerStr kw)) = true :=
    strIncludes_of_infix ⟨pre, post, hbody.symm⟩
  have hany : urgencyKeywords.any
      (fun k => strIncludes (lowerStr (msg.text.getD [])) (trimStr (lowerStr k))) = true :=
    List.any_eq_true.mpr ⟨kw, hkw, hincl⟩
  have hcrit : isMessageCriticallyUrgent urgencyKeywords highPrioritySenders msg = true := by
    unfold isMessageCriticallyUrgent
    simp only [hany, if_true]
  simp only [mapWebexMessage, calculateUrgencyScore, hcrit, if_true]
  rw [decide_eq_true]
  norm_num

/-- Concrete instance of claim C3: the message body "This is URGENT now"
contains the configured keyword "urgent" as a case-insensitive whole-word
match, so the message is classified urgent. -/
theorem keyword_whole_word_implies_urgent_witness :
    (∃ kw ∈ [str "urgent"],
      IsWholeWordMatch (lowerStr ((some (str "This is URGENT now") : Option Str).getD []))
        (trimStr (lowerStr kw))) ∧
    (mapWebexMessage [str "urgent"] []
      { id := [], roomId := [], text := some (str "This is URGENT now"),
        personEmail := some (str "alice@example.com"), mentionedPeople := [],
        createdHour := 10, createdDay := 3 }).isUrgent = true := by
  have hw : IsWholeWordMatch (lowerStr ((some (str "This is URGENT now") : Option Str).getD []))
      (trimStr (lowerStr (str "urgent"))) := by
    refine ⟨str "this is ", str " now", by decide, ?_, ?_⟩
    · intro c hc
      have : c = ' ' := by
        rw [show (str "this is ").getLast? = some ' ' from by decide] at hc
        exact (Option.some_injective _ hc).symm
      rw [this]
      decide
    · intro c hc
      have : c = ' ' := by
        rw [show (str " now").head? = some ' ' from by decide] at hc
        exact (Option.some_injective _ hc).symm
      rw [this]
      decide
  refine ⟨⟨str "urgent", by decide, hw⟩, ?_⟩
  exact keyword_whole_word_implies_urgent [str "urgent"] []
    { id := [], roomId := [], text := some (str "This is URGENT now"),
      personEmail := some (str "alice@example.com"), mentionedPeople := [],
      createdHour := 10, createdDay := 3 } ⟨str "urgent", by decide, hw⟩

/-! ### Claim C7 -/

/-- Claim C7: `detectBestMode` applies its decision policy strictly in
order over the gathered analysis — Integration (DelegatedAuth) if its
probe reports read capability; else Webhook (PushNotification) if it can
create a subscription and the bot (Direct) cannot read; else Bot (Direct)
if it can read; else Hybrid.  In particular a successful integration probe
with read capability forces the Integration recommendation regardless of
the bot probe's outcome. -/
theorem detectBestMode_policy (env : ProbeEnv) :
    (detectBestMode env).2 = buildModeAnalysis env ∧
    ((buildModeAnalysis env).integration.canReadMessages = true →
      (detectBestMode env).1 = WebexMode.INTEGRATION) ∧
    ((buildModeAnalysis env).integration.canReadMessages = false →
      (buildModeAnalysis env).webhook.canCreateWebhooks = true →
      (buildModeAnalysis env).bot.canReadMessages = false →
      (detectBestMode env).1 = WebexMode.WEBHOOK) ∧
    ((buildModeAnalysis env).integration.canReadMessages = false →
      (buildModeAnalysis env).bot.canReadMessages = true →
      (detectBestMode env).1 = WebexMode.BOT) ∧
    ((buildModeAnalysis env).integration.canReadMessages = false →
      (buildModeAnalysis env).webhook.canCreateWebhooks = false →
      (buildModeAnalysis env).bot.canReadMessages = false →
      (detectBestMode env).1 = WebexMode.HYBRID) ∧
    (∀ t, env.integrationProbe = some (Except.ok t) → t.canReadMessages = true →
      (detectBestMode env).1 = WebexMode.INTEGRATION) := by
  refine ⟨rfl, ?_, ?_, ?_, ?_, ?_⟩
  · intro h1
    simp [detectBestMode, recommendMode, h1]
  · intro h1 h2 h3
    simp [detectBestMode, recommendMode, h1, h2, h3]
  · intro h1 h2
    simp [detectBestMode, recommendMode, h1, h2]
  · intro h1 h2 h3
    simp [detectBestMode, recommendMode, h1, h2, h3]
  · intro t ht hread
    have h1 : (buildModeAnalysis env).integration.canReadMessages = true := by
      simp [buildModeAnalysis, ht, hread]
    simp [detectBestMode, recommendMode, h1]

/-- The probe environment of the specification's Scenario C: the
integration (DelegatedAuth) probe succeeds with read capability and the
bot (Direct) probe fails with a permission error. -/
def scenarioCEnv : ProbeEnv :=
  { botProbe := some (Except.error (str "PermissionError"))
    integrationProbe := some (Except.ok { canReadMessages := true, errors := [] })
    webhookProbe := none }

/-- Concrete instance of claim C7 (Scenario C): integration probe ok with
read capability, bot probe failing — the recommendation is Integration. -/
theorem detectBestMode_policy_witness :
    scenarioCEnv.integrationProbe =
      some (Except.ok ({ canReadMessages := true, errors := [] } : IntegrationTest)) ∧
    ({ canReadMessages := true, errors := [] } : IntegrationTest).canReadMessages = true ∧
    (detectBestMode scenarioCEnv).1 = WebexMode.INTEGRATION :=
  ⟨rfl, rfl, (detectBestMode_policy scenarioCEnv).2.2.2.2.2
    { canReadMessages := true, errors := [] } rfl rfl⟩

/-! ### Claim C8 -/

theorem mapGet_cons (p : Str × RoomMetadata) (rest : MetaMap) (k : Str) :
    mapGet (p :: rest) k = if p.1 == k then some p.2 else mapGet rest k := by
  by_cases h : p.1 == k
  · rw [if_pos h]
    unfold mapGet
    rw [@List.find?_cons_of_pos _ (fun q => q.1 == k) p rest h]
    rfl
  · rw [if_neg h]
    unfold mapGet
    rw [@List.find?_cons_of_neg _ (fun q => q.1 == k) p rest (by simpa using h)]

theorem mapGet_mapSet_self (m : MetaMap) (k : Str) (v : RoomMetadata) :
    mapGet (mapSet m k v) k = some v := by
  induction m with
  | nil =>
    show mapGet [(k, v)] k = some v
    rw [mapGet_cons]
    simp
  | cons p rest ih =>
    by_cases h : p.1 == k
    · unfold mapSet
      rw [if_pos h, mapGet_cons]
      simp
    · unfold mapSet
      rw [if_neg h, mapGet_cons, if_neg h]
      exact ih

theorem mapGet_mapSet_ne (m : MetaMap) (k k' : Str) (v : RoomMetadata) (h : k' ≠ k) :
    mapGet (mapSet m k v) k' = mapGet m k' := by
  have hkk : (k == k') = false := by
    rw [beq_eq_false_iff_ne]
    exact fun hk => h hk.symm
  induction m with
  | nil =>
    show mapGet [(k, v)] k' = mapGet [] k'
    rw [mapGet_cons, if_neg (by simp [hkk])]
  | cons p rest ih =>
    by_cases hp : p.1 == k
    · unfold mapSet
      rw [if_pos hp, mapGet_cons, mapGet_cons]
      have hpk : p.1 = k := eq_of_beq hp
      rw [hpk, if_neg (by simp [hkk]), if_neg (by simp [hkk])]
    · unfold mapSet
      rw [if_neg hp, mapGet_cons, mapGet_cons]
      by_cases hq : p.1 == k'
      · rw [if_pos hq, if_pos hq]
      · rw [if_neg hq, if_neg hq]
        exact ih

/-- Folding the collector over rooms none of which carry id `k` leaves the
lookup at `k` unchanged. -/
theorem collect_foldl_untouched (kws : List Str) (now : ℚ) (fetch : WebexRoom → RoomFetch)
    (rooms : List WebexRoom) (acc : MetaMap) (k : Str)
    (h : ∀ r ∈ rooms, r.id ≠ k) :
    mapGet (rooms.foldl
      (fun a room => mapSet a room.id (collectOne kws now fetch room)) acc) k = mapGet acc k := by
  induction rooms generalizing acc with
  | nil => rfl
  | cons room rest ih =>
    rw [List.foldl_cons]
    rw [ih _ fun r hr => h r (List.mem_cons_of_mem _ hr)]
    exact mapGet_mapSet_ne _ _ _ _ fun hk => h room (List.mem_cons_self _ _) hk.symm

theorem collect_foldl_lookup (kws : List Str) (now : ℚ) (fetch : WebexRoom → RoomFetch)
    (rooms : List WebexRoom) :
    ∀ (acc : MetaMap) (r : WebexRoom), r ∈ rooms →
      (rooms.map (fun s => s.id)).Nodup →
      mapGet (rooms.foldl
        (fun a room => mapSet a room.id (collectOne kws now fetch room)) acc) r.id =
        some (collectOne kws now fetch r) := by
  induction rooms with
  | nil =>
    intro acc r hr _
    cases hr
  | cons room rest ih =>
    intro acc r hr hnodup
    rw [List.map_cons, List.nodup_cons] at hnodup
    rcases List.mem_cons.mp hr with h | h
    · subst h
      rw [List.foldl_cons]
      rw [collect_foldl_untouched kws now fetch rest _ r.id ?_]
      · exact mapGet_mapSet_self _ _ _
      · intro s hs hsid
        exact hnodup.1 (hsid ▸ List.mem_map_of_mem (fun t => t.id) hs)
    · exact ih _ r h hnodup.2

/-- Claim C8 (amended): a failure fetching one room's data does not abort
the batch — every room of the batch (distinct ids) ends up in the metadata
map with exactly the record `collectOne` builds for it alone, and for a
failed room that record is the degraded one: zero message counts,
`isArchived = true`, `filterReason = "Access error"` and `memberCount`
equal to zero (not unknown — the unknown marker is reserved for the
success path whose membership query failed). -/
theorem collect_metadata_batch_isolation (kws : List Str) (now : ℚ)
    (fetch : WebexRoom → RoomFetch) (rooms : List WebexRoom) (r : WebexRoom)
    (hr : r ∈ rooms) (hnodup : (rooms.map (fun s => s.id)).Nodup) :
    mapGet (collectRoomMetadata kws now fetch rooms) r.id =
      some (collectOne kws now fetch r) ∧
    (fetch r = RoomFetch.failure →
      collectOne kws now fetch r =
        { id := r.id
          title := r.title.getD unknownRoomTitle
          rtype := r.rtype
          memberCount := some 0
          lastActivity := r.lastActivity
          recentMessageCount := 0
          isArchived := true
          hasUrgentKeywords := false
          urgentMessageCount := 0
          score := 0
          filterReason := reasonAccessError }) := by
  constructor
  · exact collect_foldl_lookup kws now fetch rooms [] r hr hnodup
  · intro hfail
    simp [collectOne, hfail]

/-- The two-room batch whose first room's fetch fails. -/
def c8room1 : WebexRoom :=
  { id := str "r1", title := some (str "Alpha"), rtype := RoomType.group,
    lastActivity := 500, isLocked := false }

def c8room2 : WebexRoom :=
  { id := str "r2", title := some (str "Beta"), rtype := RoomType.group,
    lastActivity := 800, isLocked := false }

/-- A fetch in which room `r1` times out and room `r2` succeeds with one
message and a five-member membership response. -/
def c8fetch (room : WebexRoom) : RoomFetch :=
  if room.id == str "r1" then RoomFetch.failure
  else RoomFetch.success [{ text := some (str "hello"), created := 900 }] (some 5)

unseal Rat.add Rat.mul Rat.sub Rat.inv Rat.ofScientific in
/-- Counterexample to claim C8 as stated: when room `r1`'s fetch fails,
its degraded metadata records `memberCount = some 0` — the member count is
zero, not marked unknown — while room `r2` is still processed normally. -/
theorem degraded_memberCount_counterexample :
    ((mapGet (collectRoomMetadata [str "urgent"] 1000 c8fetch [c8room1, c8room2])
        (str "r1")).map fun m => m.memberCount) = some (some 0) ∧
    ¬ (((mapGet (collectRoomMetadata [str "urgent"] 1000 c8fetch [c8room1, c8room2])
        (str "r1")).map fun m => m.memberCount) = some none) ∧
    ((mapGet (collectRoomMetadata [str "urgent"] 1000 c8fetch [c8room1, c8room2])
        (str "r2")).map fun m => m.memberCount) = some (some 5) := by
  refine ⟨by decide, by decide, by decide⟩

/-- Concrete instance of the amended claim C8: in the same failing batch,
room `r1`'s entry is exactly the degraded record and it is obtained by
applying the batch-isolation theorem. -/
theorem collect_metadata_batch_isolation_witness :
    c8room1 ∈ [c8room1, c8room2] ∧
    (([c8room1, c8room2].map fun s => s.id)).Nodup ∧
    mapGet (collectRoomMetadata [str "urgent"] 1000 c8fetch [c8room1, c8room2]) c8room1.id =
      some (collectOne [str "urgent"] 1000 c8fetch c8room1) :=
  ⟨List.mem_cons_self _ _, by decide,
    (collect_metadata_batch_isolation [str "urgent"] 1000 c8fetch [c8room1, c8room2] c8room1
      (List.mem_cons_self _ _) (by decide)).1⟩

/-! ### Shared sample data for concrete instances -/

/-- A group room with the given id and title. -/
def sampleRoom (id : Str) (title : Option Str) (t : RoomType) : WebexRoom :=
  { id := id, title := title, rtype := t, lastActivity := 1000, isLocked := false }

/-- An active metadata record for the given room id and title. -/
def sampleMeta (id : Str) (title : Str) : RoomMetadata :=
  { id := id, title := title, rtype := RoomType.group, memberCount := some 3,
    lastActivity := 1000, recentMessageCount := 5, isArchived := false,
    hasUrgentKeywords := false, urgentMessageCount := 0, score := 0, filterReason := [] }

/-! ### Claim C6 -/

/-- Claim C6 (amended): a `filterRooms` call that finds a cached result
whose expiry lies in the future returns that result unchanged, leaves the
cache untouched and does not recompute the pipeline; and after a
`clearCache` call the next `filterRooms` call recomputes immediately.
(The metadata collector, by contrast, runs on every `getUrgentMessages`
call before the cache is consulted — see the counterexample.) -/
theorem filter_cache_ttl_and_clear :
    (∀ (cfg : FilterConfig) (st : FilterCacheState) (rooms : List WebexRoom) (md : MetaMap)
        (now : ℚ) (r : FilterResult) (e : ℚ),
      st.cachedResult = some r → st.cacheExpiry = some e → now < e →
      filterRooms cfg st rooms md now = { result := r, state := st, recomputed := false }) ∧
    (∀ (cfg : FilterConfig) (st : FilterCacheState) (rooms : List WebexRoom) (md : MetaMap)
        (now : ℚ),
      (filterRooms cfg (clearCache st) rooms md now).recomputed = true ∧
      (filterRooms cfg (clearCache st) rooms md now).result =
        computeFilterResult cfg rooms md now) := by
  constructor
  · intro cfg st rooms md now r e h1 h2 h3
    unfold filterRooms
    rw [h1, h2]
    simp [h3]
  · intro cfg st rooms md now
    exact ⟨rfl, rfl⟩

/-- The configuration of the two-call cache scenario: a 30-minute TTL. -/
def c6cfg : FilterConfig :=
  { priorityRooms := [], includePatterns := [], excludePatterns := [],
    maxMonitoredRooms := 25, minActivityMessages := 5, minActivityDays := 7,
    skipDirectMessages := true, cacheMinutes := 30 }

/-- A cached filter result used by the cache-hit instance. -/
def c6res : FilterResult :=
  { monitoredRooms := [], excludedRooms := []
    stats := { totalRooms := 0, monitoredCount := 0, priorityCount := 0,
               patternMatchedCount := 0, droppedDueToLimit := 0 }
    lastRefresh := 0 }

/-- A service state holding `c6res` with expiry at t = 100. -/
def c6st : FilterCacheState := { cachedResult := some c6res, cacheExpiry := some 100 }

/-- The first `getUrgentMessages`-style call, at t = 0, on a fresh service. -/
def c6call1 : FilterResult × ServiceState :=
  getUrgentMessagesRooms c6cfg [] (fun _ => RoomFetch.failure) []
    { filterState := initialCacheState, collectorCalls := 0 } 0

/-- The second call, at t = 60000 (one minute later, far inside the
30-minute TTL window), on the state the first call left behind. -/
def c6call2 : FilterResult × ServiceState :=
  getUrgentMessagesRooms c6cfg [] (fun _ => RoomFetch.failure) [] c6call1.2 60000

unseal Rat.add Rat.mul Rat.sub Rat.inv Rat.ofScientific in
/-- Counterexample to claim C6 as stated: on the second call within the
TTL window the filter result is the cached one and the filter state is
unchanged, but the metadata collector has been invoked a second time —
`getUrgentMessages` collects metadata unconditionally before consulting
the filter cache. -/
theorem collector_called_within_ttl_counterexample :
    c6call2.2.collectorCalls = 2 ∧
    c6call2.1 = c6call1.1 ∧
    c6call2.2.filterState = c6call1.2.filterState := by
  refine ⟨by decide, by decide, by decide⟩

/-- Concrete instance of the amended claim C6: a call at t = 50 against a
cache expiring at t = 100 returns the cached result without recomputation. -/
theorem filter_cache_ttl_and_clear_witness :
    (c6st.cachedResult = some c6res ∧ c6st.cacheExpiry = some (100 : ℚ) ∧ (50 : ℚ) < 100) ∧
    filterRooms c6cfg c6st [] [] 50 = { result := c6res, state := c6st, recomputed := false } :=
  ⟨⟨rfl, rfl, by decide⟩,
    filter_cache_ttl_and_clear.1 c6cfg c6st [] [] 50 c6res 100 rfl rfl (by decide)⟩

/-! ### Claim C2 -/

/-- Claim C2 (amended): the monitored list never exceeds the larger of
`maxMonitoredRooms` and the priority count — the candidate limit is
enforced exactly, but the priority phase is not capped, so a priority
count above `maxMonitoredRooms` can push the monitored list beyond the
configured maximum. -/
theorem monitored_within_limit (cfg : FilterConfig) (rooms : List WebexRoom) (md : MetaMap)
    (now : ℚ) :
    (computeFilterResult cfg rooms md now).monitoredRooms.length ≤
      max cfg.maxMonitoredRooms (computeFilterResult cfg rooms md now).stats.priorityCount := by
  unfold computeFilterResult
  simp only [List.length_append, List.length_map, List.length_take]
  omega

/-- A configuration whose two priority entries exceed the limit of one. -/
def c2cfg : FilterConfig :=
  { priorityRooms := [str "a", str "b"], includePatterns := [], excludePatterns := [],
    maxMonitoredRooms := 1, minActivityMessages := 0, minActivityDays := 7,
    skipDirectMessages := true, cacheMinutes := 30 }

def c2rooms : List WebexRoom :=
  [sampleRoom (str "a") (some (str "Alpha")) RoomType.group,
   sampleRoom (str "b") (some (str "Beta")) RoomType.group]

def c2md : MetaMap :=
  [(str "a", sampleMeta (str "a") (str "Alpha")),
   (str "b", sampleMeta (str "b") (str "Beta"))]

/-- Counterexample to claim C2 as stated: with `maxMonitoredRooms = 1` and
two matching priority rooms, the returned monitored list has two entries —
`|monitoredRooms| ≤ maxMonitoredRooms` fails. -/
theorem monitored_limit_counterexample :
    (computeFilterResult c2cfg c2rooms c2md 2000).stats.priorityCount = 2 ∧
    ¬ ((computeFilterResult c2cfg c2rooms c2md 2000).monitoredRooms.length ≤
        c2cfg.maxMonitoredRooms) := by
  refine ⟨by decide, by decide⟩

/-! ### Claim C4 -/

theorem priorityHits_mem (rooms : List WebexRoom) (md : MetaMap) :
    ∀ (idents : List Str) (ident : Str) (room : WebexRoom) (m : RoomMetadata),
      ident ∈ idents → findPriorityRoom rooms ident = some room →
      mapGet md room.id = some m → (room, m) ∈ priorityHits rooms md idents := by
  intro idents
  induction idents with
  | nil =>
    intro ident room m h
    cases h
  | cons i rest ih =>
    intro ident room m hmem hfind hget
    rcases List.mem_cons.mp hmem with h | h
    · subst h
      unfold priorityHits
      simp only [hfind, hget]
      exact List.mem_cons_self _ _
    · have htail := ih ident room m h hfind hget
      unfold priorityHits
      cases hf : findPriorityRoom rooms i with
      | none =>
        simp only [hf]
        exact htail
      | some room' =>
        simp only [hf]
        cases hg : mapGet md room'.id with
        | none =>
          simp only [hg]
          exact htail
        | some m' =>
          simp only [hg]
          exact List.mem_cons_of_mem _ htail

/-- Claim C4 (amended): whenever an entry of `priorityRooms` selects a
room — the first room of the input list whose id equals the entry or whose
title equals it case-insensitively — and that room has a metadata entry,
its metadata (reason "Priority room") is in the monitored list of the
result, for every choice of include/exclude patterns and activity
thresholds. -/
theorem priority_room_monitored (cfg : FilterConfig) (rooms : List WebexRoom) (md : MetaMap)
    (now : ℚ) (ident : Str) (room : WebexRoom) (m : RoomMetadata)
    (h1 : ident ∈ cfg.priorityRooms)
    (h2 : findPriorityRoom rooms ident = some room)
    (h3 : mapGet md room.id = some m) :
    { m with filterReason := reasonPriority } ∈
      (computeFilterResult cfg rooms md now).monitoredRooms := by
  unfold computeFilterResult
  apply List.mem_append_left
  exact List.mem_map_of_mem _ (priorityHits_mem rooms md cfg.priorityRooms ident room m h1 h2 h3)

/-- A hostile configuration: the single include pattern matches nothing
and the activity thresholds are unreachable, but "Alerts" is a priority
entry. -/
def c4cfg : FilterConfig :=
  { priorityRooms := [str "Alerts", str "Ghost"], includePatterns := [str "zzz"],
    excludePatterns := [], maxMonitoredRooms := 10, minActivityMessages := 1000,
    minActivityDays := 0, skipDirectMessages := true, cacheMinutes := 30 }

def c4room1 : WebexRoom := sampleRoom (str "r1") (some (str "alerts")) RoomType.group

def c4room2 : WebexRoom := sampleRoom (str "r2") (some (str "ALERTS")) RoomType.group

def c4room3 : WebexRoom := sampleRoom (str "r3") (some (str "ghost")) RoomType.group

def c4rooms : List WebexRoom := [c4room1, c4room2, c4room3]

/-- Metadata for rooms r1 and r2 only; r3's metadata is missing. -/
def c4md : MetaMap :=
  [(str "r1", sampleMeta (str "r1") (str "alerts")),
   (str "r2", sampleMeta (str "r2") (str "ALERTS"))]

/-- Counterexample to claim C4 as stated: room r2's title also matches the
priority entry "Alerts" case-insensitively, and room r3 is the very room
the entry "Ghost" selects, yet neither ends up in the monitored list — the
entry only admits the first matching room, and only when it has metadata. -/
theorem priority_room_monitored_counterexample :
    lowerStr (str "ALERTS") = lowerStr (str "Alerts") ∧
    findPriorityRoom c4rooms (str "Ghost") = some c4room3 ∧
    (computeFilterResult c4cfg c4rooms c4md 2000).monitoredRooms.countP
      (fun m => m.id == str "r2") = 0 ∧
    (computeFilterResult c4cfg c4rooms c4md 2000).monitoredRooms.countP
      (fun m => m.id == str "r3") = 0 := by
  refine ⟨by decide, by decide, by decide, by decide⟩

/-- Concrete instance of the amended claim C4: the entry "Alerts" selects
room r1, whose metadata is present, so r1 is monitored as a priority room
despite the hostile include pattern and activity thresholds. -/
theorem priority_room_monitored_witness :
    (str "Alerts" ∈ c4cfg.priorityRooms ∧
      findPriorityRoom c4rooms (str "Alerts") = some c4room1 ∧
      mapGet c4md c4room1.id = some (sampleMeta (str "r1") (str "alerts"))) ∧
    { sampleMeta (str "r1") (str "alerts") with filterReason := reasonPriority } ∈
      (computeFilterResult c4cfg c4rooms c4md 2000).monitoredRooms :=
  ⟨⟨by decide, by decide, by decide⟩,
    priority_room_monitored c4cfg c4rooms c4md 2000 (str "Alerts") c4room1
      (sampleMeta (str "r1") (str "alerts")) (by decide) (by decide) (by decide)⟩

/-! ### Claim C5 -/

/-- The step routing of a non-priority room with metadata whose title
matches an exclude pattern: excluded, with the direct-skip reason when
that earlier tier fires and the exclude reason otherwise. -/
theorem classifyStep_excluded (cfg : FilterConfig) (md : MetaMap) (pset : List Str) (now : ℚ)
    (r : WebexRoom) (m : RoomMetadata)
    (hpset : pset.contains r.id = false) (hget : mapGet md r.id = some m)
    (hx : matchesPatterns (roomTitleOrEmpty r) cfg.excludePatterns = true) :
    classifyStep cfg md pset now r =
      some (true, { m with filterReason :=
        if cfg.skipDirectMessages && r.rtype == RoomType.direct then reasonDirectSkipped
        else reasonExclude }) := by
  unfold classifyStep
  simp only [hpset, Bool.false_eq_true, if_false, hget]
  by_cases hd : (cfg.skipDirectMessages && r.rtype == RoomType.direct) = true
  · rw [if_pos hd, if_pos hd]
  · rw [if_neg hd, if_neg hd, if_pos hx]

/-- Any room of the batch whose step says "excluded with record `e`"
contributes `e` to the excluded list of `classifyRooms`. -/
theorem classify_excluded_mem (cfg : FilterConfig) (md : MetaMap) (pset : List Str) (now : ℚ) :
    ∀ (rooms : List WebexRoom) (r : WebexRoom) (e : RoomMetadata),
      r ∈ rooms → classifyStep cfg md pset now r = some (true, e) →
      e ∈ (classifyRooms cfg md pset now rooms).1 := by
  intro rooms
  induction rooms with
  | nil =>
    intro r e h
    cases h
  | cons s rest ih =>
    intro r e hmem hstep
    rcases List.mem_cons.mp hmem with h | h
    · subst h
      unfold classifyRooms
      simp only [hstep]
      exact List.mem_cons_self _ _
    · have htail := ih r e h hstep
      unfold classifyRooms
      cases hs : classifyStep cfg md pset now s with
      | none =>
        simp only [hs]
        exact htail
      | some p =>
        obtain ⟨b, m'⟩ := p
        cases b with
        | true =>
          simp only [hs]
          exact List.mem_cons_of_mem _ htail
        | false =>
          simp only [hs]
          exact htail

/-- Claim C5 (amended): a room that is not claimed by the priority phase,
has a metadata entry, and whose title matches an exclude pattern always
lands in the excluded list, whatever the include patterns — exclusion wins
over inclusion.  Its recorded reason is "Matches exclude pattern", except
that a direct-message room under `skipDirectMessages` has already been
excluded by the earlier tier with reason "Direct message skipped". -/
theorem exclude_pattern_wins (cfg : FilterConfig) (rooms : List WebexRoom) (md : MetaMap)
    (now : ℚ) (r : WebexRoom) (m : RoomMetadata)
    (hr : r ∈ rooms)
    (hpset : ((priorityHits rooms md cfg.priorityRooms).map fun h => h.1.id).contains r.id
      = false)
    (hget : mapGet md r.id = some m)
    (hx : matchesPatterns (roomTitleOrEmpty r) cfg.excludePatterns = true) :
    { m with filterReason :=
        if cfg.skipDirectMessages && r.rtype == RoomType.direct then reasonDirectSkipped
        else reasonExclude } ∈ (computeFilterResult cfg rooms md now).excludedRooms := by
  unfold computeFilterResult
  apply List.mem_append_left
  exact classify_excluded_mem cfg md _ now rooms r _ hr
    (classifyStep_excluded cfg md _ now r m hpset hget hx)

/-- Exclude and include patterns that both match everything containing
"social"; direct rooms are skipped. -/
def c5cfg : FilterConfig :=
  { priorityRooms := [], includePatterns := [str "*social*"],
    excludePatterns := [str "*social*"], maxMonitoredRooms := 10,
    minActivityMessages := 0, minActivityDays := 7, skipDirectMessages := true,
    cacheMinutes := 30 }

/-- A direct-message room whose title matches both pattern lists. -/
def c5room1 : WebexRoom := sampleRoom (str "d1") (some (str "team social")) RoomType.direct

/-- A group room whose title matches both pattern lists but which has no
metadata entry. -/
def c5room2 : WebexRoom := sampleRoom (str "d2") (some (str "office social")) RoomType.group

def c5rooms : List WebexRoom := [c5room1, c5room2]

def c5md : MetaMap := [(str "d1", sampleMeta (str "d1") (str "team social"))]

/-- Counterexample to claim C5 as stated: the direct room d1 matches an
exclude pattern yet its recorded reason is "Direct message skipped", not
"matches exclude pattern"; and room d2 matches an exclude pattern but —
having no metadata entry — is in neither list, hence not excluded at all. -/
theorem exclude_reason_counterexample :
    matchesPatterns (roomTitleOrEmpty c5room1) c5cfg.excludePatterns = true ∧
    (computeFilterResult c5cfg c5rooms c5md 2000).excludedRooms.countP
      (fun m => m.id == str "d1" && m.filterReason == reasonDirectSkipped) = 1 ∧
    (computeFilterResult c5cfg c5rooms c5md 2000).excludedRooms.countP
      (fun m => m.filterReason == reasonExclude) = 0 ∧
    matchesPatterns (roomTitleOrEmpty c5room2) c5cfg.excludePatterns = true ∧
    ((computeFilterResult c5cfg c5rooms c5md 2000).monitoredRooms ++
      (computeFilterResult c5cfg c5rooms c5md 2000).excludedRooms).countP
      (fun m => m.id == str "d2") = 0 := by
  refine ⟨by decide, by decide, by decide, by decide, by decide⟩

/-- A group room matching both exclude and include patterns, with
metadata: the input of the amended claim C5's concrete instance. -/
def c5broom : WebexRoom := sampleRoom (str "g1") (some (str "dev social")) RoomType.group

def c5brooms : List WebexRoom := [c5broom]

def c5bmd : MetaMap := [(str "g1", sampleMeta (str "g1") (str "dev social"))]

/-- Concrete instance of the amended claim C5: the group room g1 matches
both the exclude and the include pattern and is excluded with reason
"Matches exclude pattern". -/
theorem exclude_pattern_wins_witness :
    (c5broom ∈ c5brooms ∧
      matchesPatterns (roomTitleOrEmpty c5broom) c5cfg.excludePatterns = true ∧
      matchesPatterns (roomTitleOrEmpty c5broom) c5cfg.includePatterns = true) ∧
    { sampleMeta (str "g1") (str "dev social") with filterReason :=
        if c5cfg.skipDirectMessages && c5broom.rtype == RoomType.direct then reasonDirectSkipped
        else reasonExclude } ∈ (computeFilterResult c5cfg c5brooms c5bmd 2000).excludedRooms :=
  ⟨⟨List.mem_cons_self _ _, by decide, by decide⟩,
    exclude_pattern_wins c5cfg c5brooms c5bmd 2000 c5broom
      (sampleMeta (str "g1") (str "dev social")) (List.mem_cons_self _ _) (by decide)
      (by decide) (by decide)⟩

/-! ### Claim C9 -/

/-- The priority-set ids of a pipeline run. -/
def priorityIdsOf (cfg : FilterConfig) (rooms : List WebexRoom) (md : MetaMap) : List Str :=
  (priorityHits rooms md cfg.priorityRooms).map fun h => h.1.id

/-- The scored candidate list a pipeline run feeds into the sort. -/
def candidatesOf (cfg : FilterConfig) (rooms : List WebexRoom) (md : MetaMap) (now : ℚ) :
    List RoomMetadata :=
  (classifyRooms cfg md (priorityIdsOf cfg rooms md) now rooms).2

/-- The candidate limit of a pipeline run:
`maxMonitoredRooms - priorityCount`, clamped at zero. -/
def candidateLimit (cfg : FilterConfig) (rooms : List WebexRoom) (md : MetaMap) : Nat :=
  ((cfg.maxMonitoredRooms : Int) -
    ((priorityHits rooms md cfg.priorityRooms).length : Int)).toNat

/-- A step that routes a room into the candidate list stores exactly the
specification's score formula on that candidate. -/
theorem classifyStep_cand (cfg : FilterConfig) (md : MetaMap) (pset : List Str) (now : ℚ)
    (r : WebexRoom) (e : RoomMetadata)
    (h : classifyStep cfg md pset now r = some (false, e)) :
    e.score = specCandidateScore now e := by
  unfold classifyStep at h
  split at h
  · cases h
  · split at h
    · cases h
    · split at h
      · simp at h
      · split at h
        · simp at h
        · split at h
          · simp at h
          · split at h
            · simp at h
            · simp only [Option.some.injEq, Prod.mk.injEq, true_and] at h
              subst h
              rfl

theorem classify_cand_score (cfg : FilterConfig) (md : MetaMap) (pset : List Str) (now : ℚ) :
    ∀ (rooms : List WebexRoom) (m : RoomMetadata),
      m ∈ (classifyRooms cfg md pset now rooms).2 → m.score = specCandidateScore now m := by
  intro rooms
  induction rooms with
  | nil =>
    intro m h
    cases h
  | cons s rest ih =>
    intro m hm
    unfold classifyRooms at hm
    cases hs : classifyStep cfg md pset now s with
    | none =>
      simp only [hs] at hm
      exact ih m hm
    | some p =>
      obtain ⟨b, e⟩ := p
      cases b with
      | true =>
        simp only [hs] at hm
        exact ih m hm
      | false =>
        simp only [hs] at hm
        rcases List.mem_cons.mp hm with h | h
        · subst h
          exact classifyStep_cand cfg md pset now s m hs
        · exact ih m h

/-- Claim C9: every surviving candidate carries exactly the
specification's score
`(1000 if hasUrgentKeywords else 0) + recentMessageCount*10 +
(memberCount or 0)*2 + max(0, 50 - daysSinceLastActivity)`; the sort is a
permutation of the candidates, descending by score, and stable (a pair in
candidate order with the first score not smaller stays in that order); and
the monitored list is the priority block followed by exactly the first
`maxMonitoredRooms - priorityCount` sorted candidates (reason "Passed
filters") while the remainder land in the excluded list (reason "Limit
exceeded"). -/
theorem scoring_sort_limit (cfg : FilterConfig) (rooms : List WebexRoom) (md : MetaMap)
    (now : ℚ) :
    (∀ m ∈ candidatesOf cfg rooms md now, m.score = specCandidateScore now m) ∧
    List.Perm (sortByScoreDesc (candidatesOf cfg rooms md now)) (candidatesOf cfg rooms md now) ∧
    List.Sorted scoreGe (sortByScoreDesc (candidatesOf cfg rooms md now)) ∧
    (∀ a b, List.Sublist [a, b] (candidatesOf cfg rooms md now) → b.score ≤ a.score →
      List.Sublist [a, b] (sortByScoreDesc (candidatesOf cfg rooms md now))) ∧
    (computeFilterResult cfg rooms md now).monitoredRooms =
      ((priorityHits rooms md cfg.priorityRooms).map fun h =>
        { h.2 with filterReason := reasonPriority }) ++
      (((sortByScoreDesc (candidatesOf cfg rooms md now)).take
          (candidateLimit cfg rooms md)).map fun m =>
        { m with filterReason := reasonPassed }) ∧
    (computeFilterResult cfg rooms md now).excludedRooms =
      (classifyRooms cfg md (priorityIdsOf cfg rooms md) now rooms).1 ++
      (((sortByScoreDesc (candidatesOf cfg rooms md now)).drop
          (candidateLimit cfg rooms md)).map fun m =>
        { m with filterReason := reasonLimit }) := by
  refine ⟨?_, ?_, ?_, ?_, ?_, ?_⟩
  · intro m hm
    exact classify_cand_score cfg md (priorityIdsOf cfg rooms md) now rooms m hm
  · exact List.perm_insertionSort scoreGe _
  · exact List.sorted_insertionSort scoreGe _
  · intro a b hab hscore
    exact List.pair_sublist_insertionSort hscore hab
  · unfold computeFilterResult candidateLimit candidatesOf priorityIdsOf
    simp only [List.length_map]
  · unfold computeFilterResult candidateLimit candidatesOf priorityIdsOf
    simp only [List.length_map]

/-- A configuration with no priority rooms, no patterns, and reachable
activity thresholds, limiting monitoring to one room. -/
def c9cfg : FilterConfig :=
  { priorityRooms := [], includePatterns := [], excludePatterns := [],
    maxMonitoredRooms := 1, minActivityMessages := 0, minActivityDays := 7,
    skipDirectMessages := true, cacheMinutes := 30 }

def c9rooms : List WebexRoom :=
  [sampleRoom (str "g1") (some (str "Gym")) RoomType.group,
   sampleRoom (str "g2") (some (str "Games")) RoomType.group]

def c9md : MetaMap :=
  [(str "g1", sampleMeta (str "g1") (str "Gym")),
   (str "g2", sampleMeta (str "g2") (str "Games"))]

/-- The first candidate the pipeline builds from room g1. -/
def c9e1 : RoomMetadata :=
  { sampleMeta (str "g1") (str "Gym") with
    score := calculateScore 1000 (sampleMeta (str "g1") (str "Gym")) }

/-- The second candidate the pipeline builds from room g2; it has the same
score as the first. -/
def c9e2 : RoomMetadata :=
  { sampleMeta (str "g2") (str "Games") with
    score := calculateScore 1000 (sampleMeta (str "g2") (str "Games")) }

unseal Rat.add Rat.mul Rat.sub Rat.inv Rat.ofScientific in
/-- Concrete instance of claim C9: on a two-candidate run with tied
scores, the first candidate's stored score is the specification formula,
and the tied pair keeps its input order through the sort (stability). -/
theorem scoring_sort_limit_witness :
    (c9e1 ∈ candidatesOf c9cfg c9rooms c9md 1000 ∧
      List.Sublist [c9e1, c9e2] (candidatesOf c9cfg c9rooms c9md 1000) ∧
      c9e2.score ≤ c9e1.score) ∧
    c9e1.score = specCandidateScore 1000 c9e1 ∧
    List.Sublist [c9e1, c9e2] (sortByScoreDesc (candidatesOf c9cfg c9rooms c9md 1000)) :=
  ⟨⟨by decide, by decide, by decide⟩,
    (scoring_sort_limit c9cfg c9rooms c9md 1000).1 c9e1 (by decide),
    (scoring_sort_limit c9cfg c9rooms c9md 1000).2.2.2.1 c9e1 c9e2 (by decide) (by decide)⟩

/-! ### Claim C1 -/

theorem priorityHits_sound (rooms : List WebexRoom) (md : MetaMap) :
    ∀ (idents : List Str) (h : WebexRoom × RoomMetadata),
      h ∈ priorityHits rooms md idents →
      h.1 ∈ rooms ∧ mapGet md h.1.id = some h.2 := by
  intro idents
  induction idents with
  | nil =>
    intro h hh
    cases hh
  | cons i rest ih =>
    intro h hh
    unfold priorityHits at hh
    cases hf : findPriorityRoom rooms i with
    | none =>
      simp only [hf] at hh
      exact ih h hh
    | some room =>
      simp only [hf] at hh
      cases hg : mapGet md room.id with
      | none =>
        simp only [hg] at hh
        exact ih h hh
      | some m =>
        simp only [hg] at hh
        rcases List.mem_cons.mp hh with he | he
        · subst he
          refine ⟨List.mem_of_find?_eq_some hf, hg⟩
        · exact ih h he

/-- A skipped step means the room was claimed by the priority set or has
no metadata entry. -/
theorem classifyStep_none (cfg : FilterConfig) (md : MetaMap) (pset : List Str) (now : ℚ)
    (r : WebexRoom) (h : classifyStep cfg md pset now r = none) :
    pset.contains r.id = true ∨ mapGet md r.id = none := by
  unfold classifyStep at h
  split at h
  · next h0 => exact Or.inl h0
  · split at h
    · next hg => exact Or.inr hg
    · split at h
      · cases h
      · split at h
        · cases h
        · split at h
          · cases h
          · split at h
            · cases h
            · cases h

/-- A routed step happens only for a non-priority room with a metadata
entry, and the routed record keeps that entry's id. -/
theorem classifyStep_some_id (cfg : FilterConfig) (md : MetaMap) (pset : List Str) (now : ℚ)
    (r : WebexRoom) (b : Bool) (e : RoomMetadata)
    (h : classifyStep cfg md pset now r = some (b, e)) :
    pset.contains r.id = false ∧ ∃ m0, mapGet md r.id = some m0 ∧ e.id = m0.id := by
  unfold classifyStep at h
  split at h
  · cases h
  · next h0 =>
    refine ⟨eq_false_of_ne_true h0, ?_⟩
    split at h
    · cases h
    · next m0 hg =>
      refine ⟨m0, hg, ?_⟩
      split at h
      · simp only [Option.some.injEq, Prod.mk.injEq] at h
        rw [← h.2]
      · split at h
        · simp only [Option.some.injEq, Prod.mk.injEq] at h
          rw [← h.2]
        · split at h
          · simp only [Option.some.injEq, Prod.mk.injEq] at h
            rw [← h.2]
          · split at h
            · simp only [Option.some.injEq, Prod.mk.injEq] at h
              rw [← h.2]
            · simp only [Option.some.injEq, Prod.mk.injEq] at h
              rw [← h.2]

theorem classify_countP (cfg : FilterConfig) (md : MetaMap) (pset : List Str) (now : ℚ)
    (x : Str) :
    ∀ rooms : List WebexRoom,
      (∀ s ∈ rooms, ∀ m0, mapGet md s.id = some m0 → m0.id = s.id) →
      (classifyRooms cfg md pset now rooms).1.countP (fun m => m.id == x) +
        (classifyRooms cfg md pset now rooms).2.countP (fun m => m.id == x) =
        rooms.countP
          (fun s => !pset.contains s.id && (mapGet md s.id).isSome && (s.id == x)) := by
  intro rooms
  induction rooms with
  | nil =>
    intro _
    rfl
  | cons s rest ih =>
    intro Hid
    have ihr := ih fun t ht m0 hm0 => Hid t (List.mem_cons_of_mem _ ht) m0 hm0
    rw [List.countP_cons]
    unfold classifyRooms
    cases hs : classifyStep cfg md pset now s with
    | none =>
      have hq : (!pset.contains s.id && (mapGet md s.id).isSome && (s.id == x)) = false := by
        rcases classifyStep_none cfg md pset now s hs with h | h
        · rw [h]
          rfl
        · rw [h]
          simp
      simp only [hs, hq, Bool.false_eq_true, if_false, Nat.add_zero]
      exact ihr
    | some p =>
      obtain ⟨b, e⟩ := p
      obtain ⟨hpf, m0, hg, heid⟩ := classifyStep_some_id cfg md pset now s b e hs
      have hm0 : m0.id = s.id := Hid s (List.mem_cons_self _ _) m0 hg
      have hq : (!pset.contains s.id && (mapGet md s.id).isSome && (s.id == x)) = (s.id == x) := by
        rw [hpf, hg]
        simp
      have hex : (e.id == x) = (s.id == x) := by rw [heid, hm0]
      cases b with
      | true =>
        simp only [hs, List.countP_cons, hex, hq]
        cases hsx : (s.id == x) with
        | false => omega
        | true => omega
      | false =>
        simp only [hs, List.countP_cons, hex, hq]
        cases hsx : (s.id == x) with
        | false => omega
        | true => omega

/-- The id-count of the two result lists together decomposes into the
priority hits plus the two classification lists: the sort permutes the
candidates and the limit split only partitions them. -/
theorem result_countP (cfg : FilterConfig) (rooms : List WebexRoom) (md : MetaMap) (now : ℚ)
    (x : Str) :
    ((computeFilterResult cfg rooms md now).monitoredRooms ++
      (computeFilterResult cfg rooms md now).excludedRooms).countP (fun m => m.id == x) =
      (priorityHits rooms md cfg.priorityRooms).countP (fun h => h.2.id == x) +
      ((classifyRooms cfg md ((priorityHits rooms md cfg.priorityRooms).map fun h => h.1.id)
          now rooms).1.countP (fun m => m.id == x) +
        (classifyRooms cfg md ((priorityHits rooms md cfg.priorityRooms).map fun h => h.1.id)
          now rooms).2.countP (fun m => m.id == x)) := by
  have hperm := (List.perm_insertionSort scoreGe
    (classifyRooms cfg md ((priorityHits rooms md cfg.priorityRooms).map fun h => h.1.id)
      now rooms).2).countP_eq (fun m => m.id == x)
  have hcomp : ∀ (reason : Str) (l : List RoomMetadata),
      List.countP ((fun m => m.id == x) ∘ fun m => { m with filterReason := reason }) l =
        List.countP (fun m => m.id == x) l := by
    intro reason l
    exact List.countP_congr fun a _ => Iff.rfl
  have hcomp2 :
      List.countP ((fun m => m.id == x) ∘ fun h : WebexRoom × RoomMetadata =>
          { h.2 with filterReason := reasonPriority })
        (priorityHits rooms md cfg.priorityRooms) =
        List.countP (fun h => h.2.id == x) (priorityHits rooms md cfg.priorityRooms) :=
    List.countP_congr fun a _ => Iff.rfl
  have htd :
      List.countP (fun m => m.id == x)
        (List.take ((cfg.maxMonitoredRooms : Int) -
            ((priorityHits rooms md cfg.priorityRooms).length : Int)).toNat
          (sortByScoreDesc (classifyRooms cfg md
            (List.map (fun h => h.1.id) (priorityHits rooms md cfg.priorityRooms)) now rooms).2)) +
      List.countP (fun m => m.id == x)
        (List.drop ((cfg.maxMonitoredRooms : Int) -
            ((priorityHits rooms md cfg.priorityRooms).length : Int)).toNat
          (sortByScoreDesc (classifyRooms cfg md
            (List.map (fun h => h.1.id) (priorityHits rooms md cfg.priorityRooms)) now rooms).2)) =
      List.countP (fun m => m.id == x)
        (classifyRooms cfg md
          (List.map (fun h => h.1.id) (priorityHits rooms md cfg.priorityRooms)) now rooms).2 := by
    rw [← List.countP_append, List.take_append_drop]
    exact hperm
  unfold computeFilterResult
  simp only [List.countP_append, List.countP_map, List.length_map]
  rw [hcomp2, hcomp reasonPassed, hcomp reasonLimit]
  omega

theorem str_contains_iff {l : List Str} {a : Str} : l.contains a = true ↔ a ∈ l :=
  List.elem_iff

theorem countP_beq_of_nodup {l : List Str} {a : Str} (d : l.Nodup) (h : a ∈ l) :
    l.countP (fun i => i == a) = 1 := by
  induction l with
  | nil => cases h
  | cons b rest ih =>
    rw [List.countP_cons]
    rw [List.nodup_cons] at d
    rcases List.mem_cons.mp h with he | he
    · have h0 : rest.countP (fun i => i == a) = 0 :=
        List.countP_eq_zero.mpr fun c hc hbc => d.1 (he ▸ eq_of_beq hbc ▸ hc)
      rw [h0, show (b == a) = true from beq_iff_eq.mpr he.symm]
      rfl
    · have hb : (b == a) = false := beq_eq_false_iff_ne.mpr fun hba => d.1 (hba ▸ he)
      rw [ih d.2 he, hb]
      rfl

/-- Claim C1 (amended): provided every input room has a metadata entry
carrying its own id, the input ids are pairwise distinct, and no two
`priorityRooms` entries select the same room, every input room appears in
exactly one of `monitoredRooms`/`excludedRooms`, exactly once. -/
theorem filterRooms_partition (cfg : FilterConfig) (rooms : List WebexRoom) (md : MetaMap)
    (now : ℚ) (r : WebexRoom)
    (Hsome : ∀ s ∈ rooms, (mapGet md s.id).isSome = true)
    (Hid : ∀ s ∈ rooms, ∀ m0, mapGet md s.id = some m0 → m0.id = s.id)
    (Hnodup : (rooms.map fun s => s.id).Nodup)
    (Hpnodup : ((priorityHits rooms md cfg.priorityRooms).map fun h => h.1.id).Nodup)
    (hr : r ∈ rooms) :
    ((computeFilterResult cfg rooms md now).monitoredRooms ++
      (computeFilterResult cfg rooms md now).excludedRooms).countP
      (fun m => m.id == r.id) = 1 := by
  have hdec := result_countP cfg rooms md now r.id
  have hprio : (priorityHits rooms md cfg.priorityRooms).countP (fun h => h.2.id == r.id) =
      ((priorityHits rooms md cfg.priorityRooms).map fun h => h.1.id).countP
        (fun i => i == r.id) := by
    rw [List.countP_map]
    apply List.countP_congr
    intro h hh
    obtain ⟨h1, h2⟩ := priorityHits_sound rooms md cfg.priorityRooms h hh
    have hid := Hid h.1 h1 h.2 h2
    rw [hid]
    exact Iff.rfl
  have hcls := classify_countP cfg md
    ((priorityHits rooms md cfg.priorityRooms).map fun h => h.1.id) now r.id rooms Hid
  by_cases hmem : r.id ∈ ((priorityHits rooms md cfg.priorityRooms).map fun h => h.1.id)
  · have h1 := countP_beq_of_nodup Hpnodup hmem
    have h2 : rooms.countP (fun s =>
        !((priorityHits rooms md cfg.priorityRooms).map fun h => h.1.id).contains s.id &&
          (mapGet md s.id).isSome && (s.id == r.id)) = 0 := by
      apply List.countP_eq_zero.mpr
      intro s hs hcontra
      rw [Bool.and_eq_true, Bool.and_eq_true] at hcontra
      obtain ⟨⟨hnc, _⟩, hsx⟩ := hcontra
      have hsid : s.id = r.id := eq_of_beq hsx
      have hct : ((priorityHits rooms md cfg.priorityRooms).map fun h => h.1.id).contains s.id
          = true := str_contains_iff.mpr (hsid ▸ hmem)
      rw [hct] at hnc
      exact absurd hnc (by simp)
    omega
  · have h1 : (((priorityHits rooms md cfg.priorityRooms).map fun h => h.1.id).countP
        (fun i => i == r.id)) = 0 :=
      List.countP_eq_zero.mpr fun i hi hbeq => hmem (eq_of_beq hbeq ▸ hi)
    have h2 : rooms.countP (fun s =>
        !((priorityHits rooms md cfg.priorityRooms).map fun h => h.1.id).contains s.id &&
          (mapGet md s.id).isSome && (s.id == r.id)) = 1 := by
      have hcong : rooms.countP (fun s =>
          !((priorityHits rooms md cfg.priorityRooms).map fun h => h.1.id).contains s.id &&
            (mapGet md s.id).isSome && (s.id == r.id)) =
          rooms.countP (fun s => s.id == r.id) := by
        apply List.countP_congr
        intro s hs
        constructor
        · intro hq
          rw [Bool.and_eq_true, Bool.and_eq_true] at hq
          exact hq.2
        · intro hsx
          have hsid : s.id = r.id := eq_of_beq hsx
          have hnc : ((priorityHits rooms md cfg.priorityRooms).map fun h => h.1.id).contains s.id
              = false := by
            rw [hsid]
            cases hc : ((priorityHits rooms md cfg.priorityRooms).map fun h => h.1.id).contains r.id
            · rfl
            · exact absurd (str_contains_iff.mp hc) hmem
          rw [Bool.and_eq_true, Bool.and_eq_true]
          exact ⟨⟨by rw [hnc]; rfl, Hsome s hs⟩, hsx⟩
      rw [hcong]
      have hmap : rooms.countP (fun s => s.id == r.id) =
          (rooms.map fun s => s.id).countP (fun i => i == r.id) := by
        rw [List.countP_map]
        exact List.countP_congr fun s _ => Iff.rfl
      rw [hmap]
      exact countP_beq_of_nodup Hnodup (List.mem_map_of_mem _ hr)
    omega

/-- Two priority entries — an id and a case-insensitive title — that both
select room b, plus a hostile include pattern. -/
def c1cfg : FilterConfig :=
  { priorityRooms := [str "b", str "beta"], includePatterns := [str "zzz"],
    excludePatterns := [], maxMonitoredRooms := 10, minActivityMessages := 0,
    minActivityDays := 7, skipDirectMessages := false, cacheMinutes := 30 }

def c1roomA : WebexRoom := sampleRoom (str "a") (some (str "Alpha")) RoomType.group

def c1roomB : WebexRoom := sampleRoom (str "b") (some (str "Beta")) RoomType.group

def c1roomC : WebexRoom := sampleRoom (str "c") (some (str "Gamma")) RoomType.group

/-- An input list with room a lacking metadata and room c listed twice. -/
def c1rooms : List WebexRoom := [c1roomA, c1roomB, c1roomC, c1roomC]

def c1md : MetaMap :=
  [(str "b", sampleMeta (str "b") (str "Beta")),
   (str "c", sampleMeta (str "c") (str "Gamma"))]

/-- Counterexample to claim C1 as stated: room a (no metadata entry)
appears in neither returned list; room b, selected by two priority
entries, appears twice in the monitored list; and the duplicated room c
appears twice across the two lists. -/
theorem filterRooms_partition_counterexample :
    c1roomA ∈ c1rooms ∧
    ((computeFilterResult c1cfg c1rooms c1md 2000).monitoredRooms ++
      (computeFilterResult c1cfg c1rooms c1md 2000).excludedRooms).countP
      (fun m => m.id == str "a") = 0 ∧
    ((computeFilterResult c1cfg c1rooms c1md 2000).monitoredRooms ++
      (computeFilterResult c1cfg c1rooms c1md 2000).excludedRooms).countP
      (fun m => m.id == str "b") = 2 ∧
    ((computeFilterResult c1cfg c1rooms c1md 2000).monitoredRooms ++
      (computeFilterResult c1cfg c1rooms c1md 2000).excludedRooms).countP
      (fun m => m.id == str "c") = 2 := by
  refine ⟨by decide, by decide, by decide, by decide⟩

/-- A well-behaved two-room input for the amended claim C1: distinct ids,
complete id-consistent metadata, one priority room, the other room
excluded by the include pattern. -/
def c1wcfg : FilterConfig :=
  { priorityRooms := [str "x"], includePatterns := [str "zzz"], excludePatterns := [],
    maxMonitoredRooms := 10, minActivityMessages := 0, minActivityDays := 7,
    skipDirectMessages := false, cacheMinutes := 30 }

def c1wroomX : WebexRoom := sampleRoom (str "x") (some (str "Xray")) RoomType.group

def c1wroomY : WebexRoom := sampleRoom (str "y") (some (str "Yankee")) RoomType.group

def c1wrooms : List WebexRoom := [c1wroomX, c1wroomY]

def c1wmd : MetaMap :=
  [(str "x", sampleMeta (str "x") (str "Xray")),
   (str "y", sampleMeta (str "y") (str "Yankee"))]

/-- Concrete instance of the amended claim C1: under the amendment's
hypotheses, room y appears exactly once across the two result lists. -/
theorem filterRooms_partition_witness :
    ((∀ s ∈ c1wrooms, (mapGet c1wmd s.id).isSome = true) ∧
      (∀ s ∈ c1wrooms, ∀ m0, mapGet c1wmd s.id = some m0 → m0.id = s.id) ∧
      (c1wrooms.map fun s => s.id).Nodup ∧
      ((priorityHits c1wrooms c1wmd c1wcfg.priorityRooms).map fun h => h.1.id).Nodup ∧
      c1wroomY ∈ c1wrooms) ∧
    ((computeFilterResult c1wcfg c1wrooms c1wmd 2000).monitoredRooms ++
      (computeFilterResult c1wcfg c1wrooms c1wmd 2000).excludedRooms).countP
      (fun m => m.id == c1wroomY.id) = 1 :=
  ⟨⟨by decide, by decide, by decide, by decide, by decide⟩,
    filterRooms_partition c1wcfg c1wrooms c1wmd 2000 c1wroomY (by decide) (by decide)
      (by decide) (by decide) (by decide)⟩

end ClaudeBridge
